import Mathlib

/-!
Shallow embedding of the analytics engine of the wenotify-server repository
(`wenotify/controllers/analytics.py` and `wenotify/controllers/locations.py`),
together with proofs of the stated properties of its specification.

Timestamps are modelled as rational epoch-seconds.  SQL result rows are
modelled as Lean lists; `GROUP BY` over a column becomes grouping over the
distinct values (`List.dedup`) of a key function; `ORDER BY` becomes an
insertion sort by the ordering column.  Python's `round(x, 2)` is modelled by
rounding to the nearest multiple of `1/100` in `ℚ` (or `ℝ` where the source
computes with square roots).
-/

namespace WeNotify

/-- One day in epoch seconds (`timedelta(days=1)`). -/
def daySecs : ℚ := 86400

/-- Python's `round(x, 2)`: round to the nearest multiple of 1/100. -/
def round2 (q : ℚ) : ℚ := (round (q * 100) : ℤ) / 100

/-- A crime report row (`CrimeReport` model): the columns the analytics
engine reads.  `deleted_at` is the soft-delete marker. -/
structure Incident where
  id : ℕ
  created_at : ℚ
  updated_at : ℚ
  category : String
  severity : String
  status : String
  location_id : ℕ
  deleted_at : Option ℚ
deriving DecidableEq, Repr

/-- A location row (`Location` model), parametrised by the coordinate type
(`ℚ` for the aggregation claims, `ℝ` for the distance-formula claim). -/
structure Location (α : Type) where
  id : ℕ
  latitude : α
  longitude : α
  city : Option String
  county : Option String
  sub_county : Option String
  is_active : Bool
deriving DecidableEq

/-- SQL `coalesce(Location.city, Location.county, 'Unknown')`. -/
def locationName {α : Type} (l : Location α) : String :=
  match l.city with
  | some c => c
  | none => match l.county with
    | some c => c
    | none => "Unknown"

/-! ### Generic sorting (models SQL `ORDER BY`)

`List.insertionSort` from Mathlib is used with named order relations so that
the `IsTotal`/`IsTrans` instances needed for sortedness are found. -/

/-- Descending order on (row, count) pairs: models `ORDER BY count DESC`. -/
def countDescLe {α : Type} (a b : α × ℕ) : Prop := b.2 ≤ a.2

instance {α : Type} : DecidableRel (countDescLe (α := α)) :=
  fun a b => inferInstanceAs (Decidable (b.2 ≤ a.2))

instance {α : Type} : IsTotal (α × ℕ) countDescLe :=
  ⟨fun a b => (Nat.le_total b.2 a.2).imp id id⟩

instance {α : Type} : IsTrans (α × ℕ) countDescLe :=
  ⟨fun _ _ _ h1 h2 => Nat.le_trans h2 h1⟩

/-- Ascending order on (row, distance) pairs: models `ORDER BY distance`. -/
def distAscLe {α β : Type} [LinearOrder β] (a b : α × β) : Prop := a.2 ≤ b.2

instance {α β : Type} [LinearOrder β] : DecidableRel (distAscLe (α := α) (β := β)) :=
  fun a b => inferInstanceAs (Decidable (a.2 ≤ b.2))

instance {α β : Type} [LinearOrder β] : IsTotal (α × β) distAscLe :=
  ⟨fun a b => le_total a.2 b.2⟩

instance {α β : Type} [LinearOrder β] : IsTrans (α × β) distAscLe :=
  ⟨fun _ _ _ h1 h2 => le_trans h1 h2⟩

/-! ### Aggregator (`get_crime_statistics`) -/

/-- A (grouping key, count, percentage-of-total) result row, as produced by
the grouped-count queries of `get_crime_statistics`. -/
structure GroupedStat (K : Type) where
  key : K
  count : ℕ
  percentage : ℚ
deriving DecidableEq, Repr

/-- Percentage of a group relative to the total:
`round((count / total_reports) * 100, 2) if total_reports > 0 else 0`. -/
def pctOf (c total : ℕ) : ℚ :=
  if 0 < total then round2 ((c : ℚ) / (total : ℚ) * 100) else 0

/-- Grouped count over the distinct values of `key` in `rows`, with the
percentage computed against the one shared total (`rows.length`), exactly as
`get_crime_statistics` computes `stats_by_type` / `stats_by_severity` /
`stats_by_status` from the filtered record set. -/
def groupCount {K : Type} [DecidableEq K] (key : Incident → K)
    (rows : List Incident) : List (GroupedStat K) :=
  (rows.map key).dedup.map fun k =>
    ⟨k, (rows.map key).count k, pctOf ((rows.map key).count k) rows.length⟩

/-- The `WHERE` conditions of `get_crime_statistics`: creation time inside
the window, not soft-deleted, optional location and category filters. -/
def crimeStatsCond (startD endD : ℚ) (locId : Option ℕ) (cat : Option String)
    (r : Incident) : Bool :=
  startD ≤ r.created_at && r.created_at ≤ endD && r.deleted_at.isNone &&
    (match locId with | some l => r.location_id == l | none => true) &&
    (match cat with | some c => r.category == c | none => true)

/-- Crime statistics response (`CrimeStatsResponse`). -/
structure CrimeStatsResponse where
  total_crimes : ℕ
  start_date : ℚ
  end_date : ℚ
  stats_by_type : List (GroupedStat String)
  stats_by_severity : List (GroupedStat String)
  stats_by_status : List (GroupedStat String)
  stats_by_location : List (GroupedStat (Location ℚ))
  average_response_time_hours : ℚ

/-- Mean of a list of rationals (`statistics.mean`); 0 on the empty list. -/
def meanQ (l : List ℚ) : ℚ := l.sum / (l.length : ℚ)

/-- The `get_crime_statistics` operation.  Defaults: `end = now`,
`start = end - 30 days`.  All grouped statistics reuse the single filtered
record set and its one total. -/
def getCrimeStatistics (start? end? : Option ℚ) (locId : Option ℕ)
    (cat : Option String) (now : ℚ) (incidents : List Incident)
    (locations : List (Location ℚ)) : CrimeStatsResponse :=
  let endD := end?.getD now
  let startD := start?.getD (endD - 30 * daySecs)
  let rows := incidents.filter (crimeStatsCond startD endD locId cat)
  let total := rows.length
  let locGroups : List (Location ℚ × ℕ) := locations.filterMap fun loc =>
    let c := rows.countP (fun r => r.location_id == loc.id)
    if 0 < c then some (loc, c) else none
  let locSorted := locGroups.insertionSort countDescLe
  let resolved := rows.filter fun r => r.status == "RESOLVED" || r.status == "CLOSED"
  let avgSecs := if resolved.isEmpty then 0
    else meanQ (resolved.map fun r => r.updated_at - r.created_at)
  { total_crimes := total
    start_date := startD
    end_date := endD
    stats_by_type := groupCount Incident.category rows
    stats_by_severity := groupCount Incident.severity rows
    stats_by_status := groupCount Incident.status rows
    stats_by_location := locSorted.map fun g => ⟨g.1, g.2, pctOf g.2 total⟩
    average_response_time_hours := if avgSecs == 0 then 0 else round2 (avgSecs / 3600) }

/-! ### Trend analyzer (`get_trend_analysis`) -/

/-- A point of the trend series (`TrendDataPoint`).  The `period` label is
kept as the truncated bucket key (the source formats it to a string, which
is presentation only). -/
structure TrendDataPoint where
  period : ℤ
  count : ℕ
  percentage_change : Option ℚ
deriving DecidableEq, Repr

/-- Look-back window per period string, from the `if/elif` chain of
`get_trend_analysis`; `none` models the `HTTP 400` branch. -/
def periodDaysBack (period : String) : Option ℕ :=
  if period = "daily" then some 30
  else if period = "weekly" then some 84
  else if period = "monthly" then some 365
  else if period = "yearly" then some 1095
  else none

/-- The loop of `get_trend_analysis` that walks the ordered (bucket, count)
rows carrying `previous_count`: the change is `None` for the first row and
whenever the previous count is not positive, otherwise
`round((count - previous) / previous * 100, 2)`. -/
def trendPoints (previous : Option ℕ) : List (ℤ × ℕ) → List TrendDataPoint
  | [] => []
  | (b, c) :: rest =>
    let pc : Option ℚ :=
      match previous with
      | some p => if 0 < p then some (round2 (((c : ℚ) - (p : ℚ)) / (p : ℚ) * 100)) else none
      | none => none
    ⟨b, c, pc⟩ :: trendPoints (some c) rest

/-- Overall trend of a count series: compares first and last bucket only,
with the fixed `> 5` / `< -5` direction thresholds of the source. -/
def overallTrend (counts : List ℕ) : ℚ × String :=
  match counts with
  | [] => (0, "stable")
  | [_] => (0, "stable")
  | c0 :: c1 :: rest =>
    let last := (c1 :: rest).getLast (List.cons_ne_nil c1 rest)
    if 0 < c0 then
      let p := round2 (((last : ℚ) - (c0 : ℚ)) / (c0 : ℚ) * 100)
      if 5 < p then (p, "increasing")
      else if p < -5 then (p, "decreasing")
      else (p, "stable")
    else (0, "stable")

/-- Trend analysis response (`TrendAnalysisResponse`). -/
structure TrendAnalysisResponse where
  crime_type : Option String
  location_id : Option ℕ
  period : String
  trends : List TrendDataPoint
  total_change_percentage : ℚ
  trend_direction : String
deriving DecidableEq, Repr

/-- The body of `get_trend_analysis` after period validation: filter to the
look-back window, bucket by the truncation function, order buckets
ascending, and assemble the series and the overall verdict.  `trunc` stands
for SQL `date_trunc` at the period's granularity. -/
def trendCore (period : String) (daysBack : ℕ) (cat : Option String)
    (locId : Option ℕ) (trunc : ℚ → ℤ) (now : ℚ)
    (incidents : List Incident) : TrendAnalysisResponse :=
  let startD := now - (daysBack : ℚ) * daySecs
  let rows := incidents.filter fun r =>
    startD ≤ r.created_at && r.deleted_at.isNone &&
      (match cat with | some c => r.category == c | none => true) &&
      (match locId with | some l => r.location_id == l | none => true)
  let keys := (rows.map fun r => trunc r.created_at).dedup
  let buckets := (keys.insertionSort (· ≤ ·)).map fun b =>
    (b, (rows.map fun r => trunc r.created_at).count b)
  let trends := trendPoints none buckets
  let overall := overallTrend (buckets.map (·.2))
  { crime_type := cat
    location_id := locId
    period := period
    trends := trends
    total_change_percentage := overall.1
    trend_direction := overall.2 }

/-- The `get_trend_analysis` operation: the period string is validated
first; an unknown period yields the client error without touching the
record store. -/
def getTrendAnalysis (period : String) (cat : Option String)
    (locId : Option ℕ) (trunc : ℚ → ℤ) (now : ℚ)
    (incidents : List Incident) : Except String TrendAnalysisResponse :=
  match periodDaysBack period with
  | none => .error "Period must be daily, weekly, monthly, or yearly"
  | some d => .ok (trendCore period d cat locId trunc now incidents)

/-! ### Hotspot analyzer (`get_hotspot_analysis`) -/

/-- A hotspot row (`HotspotLocation`). -/
structure HotspotLocation where
  location_id : ℕ
  location_name : String
  latitude : ℚ
  longitude : ℚ
  incident_count : ℕ
  risk_level : String
  county : Option String
  sub_county : Option String
deriving DecidableEq, Repr

/-- Hotspot analysis response (`HotspotAnalysisResponse`); `radius_km` is
only echoed back. -/
structure HotspotAnalysisResponse where
  radius_km : ℚ
  min_incidents : ℕ
  days_back : ℕ
  hotspots : List HotspotLocation
  total_hotspots : ℕ

/-- Risk tier from incident count, with the source's thresholds relative to
`min_incidents` (`count >= min*4` CRITICAL, `>= min*2` HIGH, `>= min*1.5`
MEDIUM, else LOW). -/
def riskLevel (count min_incidents : ℕ) : String :=
  if min_incidents * 4 ≤ count then "CRITICAL"
  else if min_incidents * 2 ≤ count then "HIGH"
  else if (min_incidents : ℚ) * (3 / 2) ≤ (count : ℚ) then "MEDIUM"
  else "LOW"

/-- Numeric rank of a risk tier, to state monotonicity. -/
def riskRank : String → ℕ
  | "MEDIUM" => 1
  | "HIGH" => 2
  | "CRITICAL" => 3
  | _ => 0

/-- The `get_hotspot_analysis` operation: join incidents of the window to
their locations, group per location, keep groups with at least
`min_incidents` incidents (a joined group exists only when at least one
incident hit the location), order by count descending, and label tiers. -/
def getHotspotAnalysis (radius_km : ℚ) (min_incidents days_back : ℕ)
    (now : ℚ) (incidents : List Incident)
    (locations : List (Location ℚ)) : HotspotAnalysisResponse :=
  let startD := now - (days_back : ℚ) * daySecs
  let rows := incidents.filter fun r =>
    startD ≤ r.created_at && r.deleted_at.isNone
  let groups : List (Location ℚ × ℕ) := locations.filterMap fun loc =>
    let c := rows.countP (fun r => r.location_id == loc.id)
    if 0 < c && min_incidents ≤ c then some (loc, c) else none
  let sorted := groups.insertionSort countDescLe
  { radius_km := radius_km
    min_incidents := min_incidents
    days_back := days_back
    hotspots := sorted.map fun g =>
      ⟨g.1.id, locationName g.1, g.1.latitude, g.1.longitude, g.2,
        riskLevel g.2 min_incidents, g.1.county, g.1.sub_county⟩
    total_hotspots := sorted.length }

/-! ### Predictive estimator (`get_predictive_analysis`)

The historical counts are exact naturals; the mean, the sample standard
deviation (a square root) and everything downstream of it live in `ℝ`. -/

/-- The fixed look-back offsets in months (`for months_back in [1,2,3,6,12]`). -/
def offsets : List ℕ := [1, 2, 3, 6, 12]

/-- Historical sample per offset: the count of non-deleted incidents
matching the filters whose creation time lies in
`[now - (30*m + prediction_days) days, now - 30*m days]`. -/
def histCounts (prediction_days : ℕ) (locId : Option ℕ) (cat : Option String)
    (now : ℚ) (incidents : List Incident) : List ℕ :=
  offsets.map fun m =>
    let endD := now - (30 * m : ℕ) * daySecs
    let startD := now - ((30 * m + prediction_days : ℕ) : ℚ) * daySecs
    (incidents.filter fun r =>
      startD ≤ r.created_at && r.created_at ≤ endD && r.deleted_at.isNone &&
        (match locId with | some l => r.location_id == l | none => true) &&
        (match cat with | some c => r.category == c | none => true)).length

/-- Mean of the historical samples (`statistics.mean`), as a real; 0 on the
empty list (the source never takes the mean of an empty sample list). -/
noncomputable def histAvg (counts : List ℕ) : ℝ :=
  (counts.map fun c : ℕ => (c : ℝ)).sum / (counts.length : ℝ)

/-- Sample standard deviation of the historical samples
(`statistics.stdev(...) if len > 1 else 0`). -/
noncomputable def histStd (counts : List ℕ) : ℝ :=
  if 2 ≤ counts.length then
    Real.sqrt ((counts.map fun c : ℕ => ((c : ℝ) - histAvg counts) ^ 2).sum /
      ((counts.length : ℝ) - 1))
  else 0

/-- Python's `int()` on a real: truncation toward zero. -/
noncomputable def pyInt (x : ℝ) : ℤ := if 0 ≤ x then ⌊x⌋ else ⌈x⌉

/-- Rounding to 2 decimals on the reals (`round(x, 2)` downstream of the
standard deviation). -/
noncomputable def round2R (x : ℝ) : ℝ := (round (x * 100) : ℤ) / 100

/-- A per-day forecast row (`PredictionDataPoint`); `day` models the target
date `now + (day+1) days`. -/
structure PredictionDataPoint where
  day : ℕ
  predicted_count : ℤ
  confidence : ℝ
  lower_bound : ℤ
  upper_bound : ℤ

/-- One per-day prediction from the historical mean and standard deviation,
exactly as the loop body of `get_predictive_analysis` computes it. -/
noncomputable def mkPrediction (avg std : ℝ) (prediction_days day : ℕ) :
    PredictionDataPoint :=
  let daily_avg := avg / (prediction_days : ℝ)
  { day := day + 1
    predicted_count := max 0 (pyInt daily_avg)
    confidence := round2R (max 0.3 (1 - std / max avg 1))
    lower_bound := max 0 (pyInt (daily_avg - std))
    upper_bound := pyInt (daily_avg + std) }

/-- Recommendation string from total predicted incidents and (unrounded)
overall confidence: the confidence check comes first. -/
noncomputable def genRecommendation (predicted_incidents : ℤ)
    (confidence : ℝ) : String :=
  if confidence < 0.6 then
    "Low confidence prediction. More historical data needed for accurate forecasting."
  else if 20 < predicted_incidents then
    "Very high incident prediction. Consider emergency response protocols and increased patrol presence."
  else if 10 < predicted_incidents then
    "High incident prediction. Consider increasing patrol presence and preventive measures."
  else if 5 < predicted_incidents then
    "Moderate incident prediction. Monitor situation and maintain standard response readiness."
  else
    "Low incident prediction. Standard monitoring recommended."

/-- Mean of a list of reals. -/
noncomputable def meanR (l : List ℝ) : ℝ := l.sum / (l.length : ℝ)

/-- Predictive analysis response (`PredictiveAnalysisResponse`). -/
structure PredictiveAnalysisResponse where
  crime_type : Option String
  location_id : Option ℕ
  prediction_days : ℕ
  predictions : List PredictionDataPoint
  overall_confidence : ℝ
  recommendation : String

/-- The `get_predictive_analysis` operation.  The `historical samples
empty` branch of the source is kept although it is unreachable (the offset
list is never empty, so there are always five samples). -/
noncomputable def getPredictiveAnalysis (prediction_days : ℕ)
    (locId : Option ℕ) (cat : Option String) (now : ℚ)
    (incidents : List Incident) : PredictiveAnalysisResponse :=
  let counts := histCounts prediction_days locId cat now incidents
  if counts.isEmpty then
    { crime_type := cat
      location_id := locId
      prediction_days := prediction_days
      predictions := []
      overall_confidence := round2R 0
      recommendation := genRecommendation 0 0 }
  else
    let avg := histAvg counts
    let std := histStd counts
    let preds := (List.range prediction_days).map
      (mkPrediction avg std prediction_days)
    let overall := meanR (preds.map (·.confidence))
    let total := (preds.map (·.predicted_count)).sum
    { crime_type := cat
      location_id := locId
      prediction_days := prediction_days
      predictions := preds
      overall_confidence := round2R overall
      recommendation := genRecommendation total overall }

/-! ### Nearby locations (`get_nearby_locations`) -/

/-- Degrees to radians (SQL `radians(x)`). -/
noncomputable def radiansOf (deg : ℝ) : ℝ := deg * (Real.pi / 180)

/-- The spherical law-of-cosines distance of the source, in kilometres:
`acos(sin(lat1) sin(lat2) + cos(lat1) cos(lat2) cos(lon2 - lon1)) * 6371`
with all angles converted from degrees to radians. -/
noncomputable def sphericalDistance (lat1 lon1 lat2 lon2 : ℝ) : ℝ :=
  Real.arccos (Real.sin (radiansOf lat1) * Real.sin (radiansOf lat2) +
    Real.cos (radiansOf lat1) * Real.cos (radiansOf lat2) *
      Real.cos (radiansOf lon2 - radiansOf lon1)) * 6371

/-- The `get_nearby_locations` query, generic in the ordered value type of
the distance column: keep active locations within `radius_km`, pair each
with its distance, and order by ascending distance. -/
def getNearbyLocations {α β : Type} [LinearOrder β]
    (dist : Location α → β) (radius_km : β)
    (locations : List (Location α)) : List (Location α × β) :=
  ((locations.filter fun l => l.is_active && decide (dist l ≤ radius_km)).map
    fun l => (l, dist l)).insertionSort distAscLe

/-! ### Sample data used by the concrete-input witnesses -/

/-- A sample theft incident. -/
def incTheft : Incident := ⟨1, 0, 3600, "THEFT", "HIGH", "SUBMITTED", 7, none⟩

/-- A sample assault incident. -/
def incAssault : Incident := ⟨2, 10, 20, "ASSAULT", "LOW", "RESOLVED", 7, none⟩

/-- A second sample theft incident. -/
def incTheft2 : Incident := ⟨3, 5, 6, "THEFT", "LOW", "CLOSED", 8, none⟩

/-- Twenty incidents at location 7 (hotspot witness data). -/
def manyIncidents : List Incident :=
  (List.range 20).map fun i => ⟨i, 0, 0, "THEFT", "HIGH", "SUBMITTED", 7, none⟩

/-- A sample location with rational coordinates. -/
def sampleLoc : Location ℚ := ⟨7, 1, 36, some "Nairobi", none, none, true⟩

/-- A sample location with real coordinates at the origin. -/
def sampleLocR : Location ℝ := ⟨7, 0, 0, some "Nairobi", none, none, true⟩

/-! ## Theorems -/

/-- Claim C10: the `radius_km` argument of the hotspot analysis is only
echoed back: two calls that differ only in the radius agree on every other
field of the response, including the hotspots, their counts, order and risk
tiers. -/
theorem hotspot_radius_echo_only (r1 r2 : ℚ) (min_incidents days_back : ℕ)
    (now : ℚ) (incidents : List Incident) (locations : List (Location ℚ)) :
    getHotspotAnalysis r1 min_incidents days_back now incidents locations =
      { getHotspotAnalysis r2 min_incidents days_back now incidents locations
          with radius_km := r1 } :=
  rfl

/-- Claim C8: an unknown period string makes `get_trend_analysis` fail with
the client error, uniformly in the record store (so before any store
query); the four recognized periods resolve to the fixed look-back windows
30 / 84 / 365 / 1095 days and proceed with exactly that window. -/
theorem trend_period_validation (period : String)
    (hp : period ≠ "daily" ∧ period ≠ "weekly" ∧ period ≠ "monthly" ∧
      period ≠ "yearly") :
    (∀ cat locId trunc now incidents,
      getTrendAnalysis period cat locId trunc now incidents =
        Except.error "Period must be daily, weekly, monthly, or yearly") ∧
    periodDaysBack "daily" = some 30 ∧ periodDaysBack "weekly" = some 84 ∧
    periodDaysBack "monthly" = some 365 ∧
    periodDaysBack "yearly" = some 1095 ∧
    (∀ cat locId trunc now incidents,
      getTrendAnalysis "daily" cat locId trunc now incidents =
        Except.ok (trendCore "daily" 30 cat locId trunc now incidents) ∧
      getTrendAnalysis "weekly" cat locId trunc now incidents =
        Except.ok (trendCore "weekly" 84 cat locId trunc now incidents) ∧
      getTrendAnalysis "monthly" cat locId trunc now incidents =
        Except.ok (trendCore "monthly" 365 cat locId trunc now incidents) ∧
      getTrendAnalysis "yearly" cat locId trunc now incidents =
        Except.ok (trendCore "yearly" 1095 cat locId trunc now incidents)) := by
  obtain ⟨h1, h2, h3, h4⟩ := hp
  refine ⟨?_, by simp [periodDaysBack], by simp [periodDaysBack],
    by simp [periodDaysBack], by simp [periodDaysBack], ?_⟩
  · intro cat locId trunc now incidents
    simp [getTrendAnalysis, periodDaysBack, h1, h2, h3, h4]
  · intro cat locId trunc now incidents
    refine ⟨?_, ?_, ?_, ?_⟩ <;> simp [getTrendAnalysis, periodDaysBack]

/-- Witness for the period-validation theorem at the concrete unknown
period string "hourly". -/
theorem trend_period_validation_witness :
    getTrendAnalysis "hourly" none none (fun q => ⌊q⌋) 0 [] =
      Except.error "Period must be daily, weekly, monthly, or yearly" :=
  (trend_period_validation "hourly"
    (by refine ⟨?_, ?_, ?_, ?_⟩ <;> decide)).1 none none (fun q => ⌊q⌋) 0 []

/-- The direction string of the overall trend characterizes the fixed
thresholds, for any change value. -/
theorem trendDirection_spec (p : ℚ) :
    ((if 5 < p then "increasing" else if p < -5 then "decreasing"
        else "stable") = "increasing" ↔ 5 < p) ∧
    ((if 5 < p then "increasing" else if p < -5 then "decreasing"
        else "stable") = "decreasing" ↔ p < -5) ∧
    ((if 5 < p then "increasing" else if p < -5 then "decreasing"
        else "stable") = "stable" ↔ ¬ 5 < p ∧ ¬ p < -5) := by
  split_ifs with hgt hlt
  · refine ⟨by simp [hgt], ?_, by simp [hgt]⟩
    simp only [show ("increasing" = "decreasing") = False by simp, false_iff]
    intro h; linarith
  · exact ⟨by simp [hgt], by simp [hlt], by simp [hlt]⟩
  · exact ⟨by simp [hgt], by simp [hlt], by simp [hgt, hlt]⟩

/-- Unfolding of `overallTrend` on a series of at least two buckets. -/
theorem overallTrend_cons_cons (c0 c1 : ℕ) (rest : List ℕ) :
    overallTrend (c0 :: c1 :: rest) =
      if 0 < c0 then
        ((fun p => (p, if 5 < p then "increasing" else if p < -5 then
          "decreasing" else "stable"))
          (round2 ((((c1 :: rest).getLast (List.cons_ne_nil c1 rest) : ℚ) -
            (c0 : ℚ)) / (c0 : ℚ) * 100)))
      else (0, "stable") := by
  simp only [overallTrend]
  split_ifs <;> rfl

/-- Claim C7: the overall trend verdict.  Fewer than two buckets give
change 0 and "stable"; otherwise the change compares first and last bucket
(0 when the first count is 0), and the direction is "increasing" exactly
when the change exceeds 5, "decreasing" exactly when it is below -5, and
"stable" otherwise. -/
theorem trend_overall_verdict (counts : List ℕ) :
    (counts.length < 2 → overallTrend counts = (0, "stable")) ∧
    (2 ≤ counts.length →
      (0 < counts.head?.getD 0 →
        (overallTrend counts).1 =
          round2 (((counts.getLast?.getD 0 : ℚ) - (counts.head?.getD 0 : ℚ)) /
            (counts.head?.getD 0 : ℚ) * 100)) ∧
      (counts.head?.getD 0 = 0 → (overallTrend counts).1 = 0)) ∧
    ((overallTrend counts).2 = "increasing" ↔ 5 < (overallTrend counts).1) ∧
    ((overallTrend counts).2 = "decreasing" ↔ (overallTrend counts).1 < -5) ∧
    ((overallTrend counts).2 = "stable" ↔
      ¬ 5 < (overallTrend counts).1 ∧ ¬ (overallTrend counts).1 < -5) := by
  match counts with
  | [] =>
    refine ⟨fun _ => rfl, by intro h; simp at h, ?_, ?_, ?_⟩ <;>
      simp [overallTrend]
  | [c] =>
    refine ⟨fun _ => rfl, by intro h; simp at h, ?_, ?_, ?_⟩ <;>
      simp [overallTrend]
  | c0 :: c1 :: rest =>
    have hlast : (c0 :: c1 :: rest).getLast?.getD 0 =
        (c1 :: rest).getLast (List.cons_ne_nil c1 rest) := by
      rw [List.getLast?_cons_cons,
        List.getLast?_eq_getLast _ (List.cons_ne_nil c1 rest)]
      rfl
    rw [overallTrend_cons_cons]
    by_cases hc0 : 0 < c0
    · rw [if_pos hc0]
      refine ⟨by simp, fun _ => ⟨?_, ?_⟩, (trendDirection_spec _).1,
        (trendDirection_spec _).2.1, (trendDirection_spec _).2.2⟩
      · intro _
        simp only [List.head?_cons, Option.getD_some, hlast]
      · intro h
        simp only [List.head?_cons, Option.getD_some] at h
        omega
    · rw [if_neg hc0]
      refine ⟨by simp, fun _ => ⟨?_, fun _ => rfl⟩, ?_, ?_, ?_⟩
      · intro h
        simp only [List.head?_cons, Option.getD_some] at h
        omega
      · simp only [show (("stable" : String) = "increasing") = False by simp]
        norm_num
      · simp only [show (("stable" : String) = "decreasing") = False by simp]
        norm_num
      · simp only [show (("stable" : String) = "stable") = True by simp]
        norm_num

/-- Witness for the overall-trend theorem: a one-bucket series is stable
with change 0, and the series 10, 20 gives a +100% "increasing" verdict. -/
theorem trend_overall_verdict_witness :
    overallTrend [5] = (0, "stable") ∧
    (overallTrend [10, 20]).1 =
      round2 ((((20:ℕ) : ℚ) - ((10:ℕ) : ℚ)) / ((10:ℕ) : ℚ) * 100) ∧
    ((overallTrend [10, 20]).2 = "increasing" ↔ 5 < (overallTrend [10, 20]).1) := by
  refine ⟨(trend_overall_verdict [5]).1 (by decide), ?_, ?_⟩
  · have h := ((trend_overall_verdict [10, 20]).2.1 (by decide)).1 (by decide)
    simpa using h
  · exact (trend_overall_verdict [10, 20]).2.2.1

/-- The trend series has one point per (bucket, count) row. -/
theorem trendPoints_length (previous : Option ℕ) (pairs : List (ℤ × ℕ)) :
    (trendPoints previous pairs).length = pairs.length := by
  induction pairs generalizing previous with
  | nil => rfl
  | cons p rest ih =>
    obtain ⟨b, c⟩ := p
    simp [trendPoints, ih]

/-- Percentage change of every point after the first: `None` when the
previous row count is 0, otherwise the rounded relative change. -/
theorem trendPoints_get_succ (previous : Option ℕ) (pairs : List (ℤ × ℕ))
    (i : ℕ) (h : i + 1 < pairs.length) :
    ((trendPoints previous pairs).get
        ⟨i + 1, by rw [trendPoints_length]; exact h⟩).percentage_change =
      if 0 < (pairs.get ⟨i, by omega⟩).2 then
        some (round2 ((((pairs.get ⟨i + 1, h⟩).2 : ℚ) -
          ((pairs.get ⟨i, by omega⟩).2 : ℚ)) /
            ((pairs.get ⟨i, by omega⟩).2 : ℚ) * 100))
      else none := by
  induction pairs generalizing previous i with
  | nil => simp at h
  | cons p rest ih =>
    obtain ⟨b, c⟩ := p
    match i with
    | 0 =>
      match rest, h with
      | (b2, c2) :: rest2, _ => rfl
    | j + 1 =>
      have hr : j + 1 < rest.length := by simpa using h
      simpa [trendPoints] using ih (some c) j hr

/-- Claim C3: in a trend series, for every point at index `i > 0` the
percentage change is `None` exactly when the previous row count is 0,
otherwise it is `round((count[i] - count[i-1]) / count[i-1] * 100, 2)`,
and the first point's percentage change is always `None`. -/
theorem trend_point_percentage_change (pairs : List (ℤ × ℕ)) (i : ℕ)
    (hi : i < pairs.length) (hpos : 0 < i) :
    (((trendPoints none pairs).get
        ⟨i, by rw [trendPoints_length]; exact hi⟩).percentage_change = none ↔
      (pairs.get ⟨i - 1, by omega⟩).2 = 0) ∧
    ((pairs.get ⟨i - 1, by omega⟩).2 ≠ 0 →
      ((trendPoints none pairs).get
          ⟨i, by rw [trendPoints_length]; exact hi⟩).percentage_change =
        some (round2 ((((pairs.get ⟨i, hi⟩).2 : ℚ) -
          ((pairs.get ⟨i - 1, by omega⟩).2 : ℚ)) /
            ((pairs.get ⟨i - 1, by omega⟩).2 : ℚ) * 100))) ∧
    (∀ h0 : 0 < pairs.length,
      ((trendPoints none pairs).get
        ⟨0, by rw [trendPoints_length]; exact h0⟩).percentage_change = none) := by
  match i, hpos with
  | j + 1, _ =>
    have hg := trendPoints_get_succ none pairs j hi
    simp only [Nat.add_sub_cancel] at hg ⊢
    refine ⟨?_, ?_, ?_⟩
    · rw [hg]
      split_ifs with hp
      · constructor
        · intro hx; cases hx
        · intro h0; omega
      · constructor
        · intro _; omega
        · intro _; rfl
    · intro hne
      rw [hg, if_pos (by omega)]
    · intro h0
      match pairs, h0 with
      | (b, c) :: rest, _ => rfl

/-- Witness for the percentage-change theorem on the concrete series
`[10, 0, 5]` (spec Scenario B): the point after the zero bucket has `None`
change, the first point has `None` change, and the point after the 10
bucket has the rounded -100% change. -/
theorem trend_point_percentage_change_witness :
    (((trendPoints none [(0, 10), (1, 0), (2, 5)]).get
        ⟨2, by decide⟩).percentage_change = none) ∧
    (((trendPoints none [(0, 10), (1, 0), (2, 5)]).get
        ⟨0, by decide⟩).percentage_change = none) ∧
    (((trendPoints none [(0, 10), (1, 0), (2, 5)]).get
        ⟨1, by decide⟩).percentage_change =
      some (round2 (((([(0, 10), (1, 0), (2, 5)].get ⟨1, by decide⟩).2 : ℚ) -
        (([(0, 10), (1, 0), (2, 5)].get ⟨0, by decide⟩).2 : ℚ)) /
          (([(0, 10), (1, 0), (2, 5)].get ⟨0, by decide⟩).2 : ℚ) * 100))) := by
  have h2 := trend_point_percentage_change [(0, 10), (1, 0), (2, 5)] 2
    (by decide) (by decide)
  have h1 := trend_point_percentage_change [(0, 10), (1, 0), (2, 5)] 1
    (by decide) (by decide)
  exact ⟨h2.1.mpr (by decide), h2.2.2 (by decide), h1.2.1 (by decide)⟩

/-- Rounding to 2 decimals moves a rational by at most 1/200. -/
theorem round2_close (q : ℚ) : |round2 q - q| ≤ 1 / 200 := by
  have h := abs_sub_round (q * 100)
  rw [abs_sub_comm] at h
  have he : round2 q - q = ((round (q * 100) : ℚ) - q * 100) / 100 := by
    unfold round2; ring
  rw [he, abs_div, abs_of_pos (by norm_num : (0:ℚ) < 100)]
  linarith

/-- Summing pointwise-close functions stays within `length * c`. -/
theorem sum_map_sub_le {α : Type} (l : List α) (f g : α → ℚ) (c : ℚ)
    (h : ∀ x ∈ l, |f x - g x| ≤ c) :
    |(l.map f).sum - (l.map g).sum| ≤ (l.length : ℚ) * c := by
  induction l with
  | nil => simp
  | cons a t ih =>
    have ha := h a (List.mem_cons_self a t)
    have ht := ih fun x hx => h x (List.mem_cons_of_mem a hx)
    simp only [List.map_cons, List.sum_cons, List.length_cons]
    have he : f a + (t.map f).sum - (g a + (t.map g).sum) =
        (f a - g a) + ((t.map f).sum - (t.map g).sum) := by ring
    rw [he]
    calc |(f a - g a) + ((t.map f).sum - (t.map g).sum)|
        ≤ |f a - g a| + |(t.map f).sum - (t.map g).sum| := abs_add _ _
      _ ≤ c + (t.length : ℚ) * c := add_le_add ha ht
      _ = ((t.length : ℚ) + 1) * c := by ring
      _ = ((t.length + 1 : ℕ) : ℚ) * c := by push_cast; ring

/-- Claim C2: grouped statistics are consistent with their total: the group
counts sum to the total of the same filtered set, each percentage is the
rounded `count/total*100` (0 when the total is 0), and for a positive total
the percentages sum to 100 up to the accumulated rounding error. -/
theorem grouped_stats_sum {K : Type} [DecidableEq K] (key : Incident → K)
    (rows : List Incident) :
    ((groupCount key rows).map (·.count)).sum = rows.length ∧
    (∀ s ∈ groupCount key rows, s.percentage =
      if 0 < rows.length then
        round2 ((s.count : ℚ) / (rows.length : ℚ) * 100) else 0) ∧
    (0 < rows.length →
      |((groupCount key rows).map (·.percentage)).sum - 100| ≤
        ((groupCount key rows).length : ℚ) * (1 / 200)) := by
  refine ⟨?_, ?_, ?_⟩
  · simp only [groupCount, List.map_map]
    have := List.sum_map_count_dedup_eq_length (rows.map key)
    simpa [Function.comp] using this
  · intro s hs
    obtain ⟨k, hk, rfl⟩ := List.mem_map.mp hs
    rfl
  · intro hT
    have hT0 : ((rows.length : ℚ)) ≠ 0 := by
      exact_mod_cast hT.ne'
    have hmap : (groupCount key rows).map (·.percentage) =
        (rows.map key).dedup.map fun k =>
          round2 (((rows.map key).count k : ℚ) / (rows.length : ℚ) * 100) := by
      simp only [groupCount, List.map_map]
      refine List.map_congr_left fun k _ => ?_
      simp [Function.comp, pctOf, if_pos hT]
    have hlen : (groupCount key rows).length = (rows.map key).dedup.length := by
      simp [groupCount]
    have hexact : ((rows.map key).dedup.map fun k =>
        ((rows.map key).count k : ℚ) / (rows.length : ℚ) * 100).sum = 100 := by
      have hc : ((rows.map key).dedup.map fun k =>
          ((rows.map key).count k : ℚ) / (rows.length : ℚ) * 100) =
          (rows.map key).dedup.map fun k =>
            (((rows.map key).count k : ℕ) : ℚ) * (100 / (rows.length : ℚ)) := by
        refine List.map_congr_left fun k _ => ?_
        field_simp
      rw [hc, List.sum_map_mul_right]
      have hs : ((rows.map key).dedup.map fun k =>
          (((rows.map key).count k : ℕ) : ℚ)).sum = (rows.length : ℚ) := by
        have := List.sum_map_count_dedup_eq_length (rows.map key)
        have hcast := congrArg (fun n : ℕ => (n : ℚ)) this
        simpa [Nat.cast_list_sum, List.map_map, Function.comp] using hcast
      rw [hs]
      field_simp
    have hdev := sum_map_sub_le (rows.map key).dedup
      (fun k => round2 (((rows.map key).count k : ℚ) / (rows.length : ℚ) * 100))
      (fun k => ((rows.map key).count k : ℚ) / (rows.length : ℚ) * 100)
      (1 / 200) (fun k _ => round2_close _)
    rw [hmap, hlen]
    calc |((rows.map key).dedup.map fun k =>
          round2 (((rows.map key).count k : ℚ) / (rows.length : ℚ) * 100)).sum - 100|
        = |((rows.map key).dedup.map fun k =>
            round2 (((rows.map key).count k : ℚ) / (rows.length : ℚ) * 100)).sum -
          ((rows.map key).dedup.map fun k =>
            ((rows.map key).count k : ℚ) / (rows.length : ℚ) * 100).sum| := by
          rw [hexact]
      _ ≤ ((rows.map key).dedup.length : ℚ) * (1 / 200) := hdev

/-- Witness for the grouped-statistics theorem on three concrete incidents
(two thefts, one assault): counts sum to 3 and the percentages
66.67 + 33.33 land within the rounding tolerance of 100. -/
theorem grouped_stats_sum_witness :
    |((groupCount Incident.category
        [incTheft, incAssault, incTheft2]).map (·.percentage)).sum - 100| ≤
      ((groupCount Incident.category
        [incTheft, incAssault, incTheft2]).length : ℚ) * (1 / 200) ∧
    ((groupCount Incident.category
        [incTheft, incAssault, incTheft2]).map (·.count)).sum =
      ([incTheft, incAssault, incTheft2] : List Incident).length ∧
    ((groupCount Incident.category
        [incTheft, incAssault, incTheft2]).get ⟨0, by decide⟩).percentage =
      (if 0 < ([incTheft, incAssault, incTheft2] : List Incident).length then
        round2 ((((groupCount Incident.category
            [incTheft, incAssault, incTheft2]).get ⟨0, by decide⟩).count : ℚ) /
          (([incTheft, incAssault, incTheft2] : List Incident).length : ℚ) * 100)
      else 0) := by
  have h := grouped_stats_sum Incident.category [incTheft, incAssault, incTheft2]
  exact ⟨h.2.2 (by decide), h.1, h.2.1 _ (List.get_mem _ _ _)⟩

/-- Claim C4: every returned hotspot has at least `min_incidents`
incidents, carries the risk tier assigned by the four fixed thresholds,
the list is ordered by incident count descending (deterministically, being
a pure function of its inputs), and the tier is a non-decreasing function
of the incident count. -/
theorem hotspot_analysis_sound (radius_km : ℚ) (min_incidents days_back : ℕ)
    (now : ℚ) (incidents : List Incident) (locations : List (Location ℚ)) :
    (∀ h ∈ (getHotspotAnalysis radius_km min_incidents days_back now
        incidents locations).hotspots,
      min_incidents ≤ h.incident_count ∧
      h.risk_level = riskLevel h.incident_count min_incidents) ∧
    ((getHotspotAnalysis radius_km min_incidents days_back now
        incidents locations).hotspots.Pairwise
      fun a b => b.incident_count ≤ a.incident_count) ∧
    (∀ c1 c2 : ℕ, c1 ≤ c2 →
      riskRank (riskLevel c1 min_incidents) ≤
        riskRank (riskLevel c2 min_incidents)) := by
  refine ⟨?_, ?_, ?_⟩
  · intro h hm
    simp only [getHotspotAnalysis] at hm
    obtain ⟨g, hg, rfl⟩ := List.mem_map.mp hm
    have hg2 := (List.mem_insertionSort countDescLe).mp hg
    obtain ⟨loc, _, hsome⟩ := List.mem_filterMap.mp hg2
    split at hsome
    next hcond =>
      rw [Bool.and_eq_true] at hcond
      cases hsome
      exact ⟨of_decide_eq_true hcond.2, rfl⟩
    next => cases hsome
  · simp only [getHotspotAnalysis]
    exact (List.sorted_insertionSort countDescLe _).map _ fun a b hab => hab
  · intro c1 c2 hle
    unfold riskLevel
    by_cases h1 : min_incidents * 4 ≤ c1
    · rw [if_pos h1, if_pos (Nat.le_trans h1 hle)]
    · rw [if_neg h1]
      by_cases h2 : min_incidents * 2 ≤ c1
      · rw [if_pos h2]
        by_cases h1b : min_incidents * 4 ≤ c2
        · rw [if_pos h1b]; simp [riskRank]
        · rw [if_neg h1b, if_pos (Nat.le_trans h2 hle)]
      · rw [if_neg h2]
        by_cases h3 : (min_incidents : ℚ) * (3 / 2) ≤ (c1 : ℚ)
        · rw [if_pos h3]
          have h3b : (min_incidents : ℚ) * (3 / 2) ≤ (c2 : ℚ) :=
            le_trans h3 (by exact_mod_cast hle)
          by_cases h1b : min_incidents * 4 ≤ c2
          · rw [if_pos h1b]; simp [riskRank]
          · rw [if_neg h1b]
            by_cases h2b : min_incidents * 2 ≤ c2
            · rw [if_pos h2b]; simp [riskRank]
            · rw [if_neg h2b, if_pos h3b]
        · rw [if_neg h3]
          have h0 : riskRank "LOW" = 0 := rfl
          rw [h0]
          exact Nat.zero_le _

/-- Evaluation of the hotspot analysis on the 20-incident sample store:
one hotspot at location 7 with 20 incidents. -/
theorem hotspot_eval :
    (getHotspotAnalysis 5 5 30 0 manyIncidents [sampleLoc]).hotspots =
      [⟨7, "Nairobi", 1, 36, 20, riskLevel 20 5, none, none⟩] := by
  have hcond : ∀ r ∈ manyIncidents,
      (decide ((0 : ℚ) - ((30 : ℕ) : ℚ) * daySecs ≤ r.created_at) &&
        r.deleted_at.isNone) = true := by
    intro r hr
    obtain ⟨i, _, rfl⟩ := List.mem_map.mp hr
    have hle : (0 : ℚ) - ((30 : ℕ) : ℚ) * daySecs ≤ (0 : ℚ) := by
      norm_num [daySecs]
    simp only [Option.isNone_none, Bool.and_true]
    exact decide_eq_true hle
  have hcnt : manyIncidents.countP
      (fun r => r.location_id == sampleLoc.id) = 20 := by decide
  simp only [getHotspotAnalysis]
  rw [List.filter_eq_self.mpr hcond]
  simp only [List.filterMap_cons, List.filterMap_nil, hcnt]
  norm_num
  simp [sampleLoc, locationName]

/-- Witness for the hotspot theorem: on the sample store the single
returned hotspot has 20 ≥ 5 incidents and the CRITICAL tier (spec
Scenario C), and raising the count from 20 to 30 does not lower the tier. -/
theorem hotspot_analysis_sound_witness :
    5 ≤ (⟨7, "Nairobi", 1, 36, 20, riskLevel 20 5, none, none⟩ :
      HotspotLocation).incident_count ∧
    (⟨7, "Nairobi", 1, 36, 20, riskLevel 20 5, none, none⟩ :
      HotspotLocation).risk_level =
      riskLevel (⟨7, "Nairobi", 1, 36, 20, riskLevel 20 5, none, none⟩ :
        HotspotLocation).incident_count 5 ∧
    riskRank (riskLevel 20 5) ≤ riskRank (riskLevel 30 5) := by
  have h := hotspot_analysis_sound 5 5 30 0 manyIncidents [sampleLoc]
  have hm : (⟨7, "Nairobi", 1, 36, 20, riskLevel 20 5, none, none⟩ :
      HotspotLocation) ∈
      (getHotspotAnalysis 5 5 30 0 manyIncidents [sampleLoc]).hotspots := by
    rw [hotspot_eval]
    exact List.mem_singleton_self _
  obtain ⟨h1, h2⟩ := h.1 _ hm
  exact ⟨h1, h2, h.2.2 20 30 (by norm_num)⟩

/-- Filtering by a predicate that already requires the soft-delete marker
to be unset is unaffected by first dropping soft-deleted rows. -/
theorem filter_isNone_filter (p : Incident → Bool)
    (hp : ∀ r, p r = true → r.deleted_at.isNone = true) (l : List Incident) :
    (l.filter fun r => r.deleted_at.isNone).filter p = l.filter p := by
  induction l with
  | nil => rfl
  | cons a t ih =>
    cases hd : a.deleted_at.isNone with
    | true => simp [List.filter_cons, hd, ih]
    | false =>
      have hpa : p a = false := by
        cases hq : p a with
        | false => rfl
        | true => rw [hp a hq] at hd; cases hd
      simp [List.filter_cons, hd, hpa, ih]

/-- Crime statistics ignore soft-deleted incidents. -/
theorem getCrimeStatistics_deleted_invariant (start? end? : Option ℚ)
    (locId : Option ℕ) (cat : Option String) (now : ℚ)
    (incidents : List Incident) (locations : List (Location ℚ)) :
    getCrimeStatistics start? end? locId cat now
      (incidents.filter fun r => r.deleted_at.isNone) locations =
    getCrimeStatistics start? end? locId cat now incidents locations := by
  simp only [getCrimeStatistics]
  rw [filter_isNone_filter]
  intro r hr
  simp only [crimeStatsCond, Bool.and_eq_true] at hr
  exact hr.1.1.2

/-- The trend core ignores soft-deleted incidents. -/
theorem trendCore_deleted_invariant (period : String) (daysBack : ℕ)
    (cat : Option String) (locId : Option ℕ) (trunc : ℚ → ℤ) (now : ℚ)
    (incidents : List Incident) :
    trendCore period daysBack cat locId trunc now
      (incidents.filter fun r => r.deleted_at.isNone) =
    trendCore period daysBack cat locId trunc now incidents := by
  simp only [trendCore]
  rw [filter_isNone_filter]
  intro r hr
  simp only [Bool.and_eq_true] at hr
  exact hr.1.1.2

/-- The hotspot analysis ignores soft-deleted incidents. -/
theorem getHotspotAnalysis_deleted_invariant (radius_km : ℚ)
    (min_incidents days_back : ℕ) (now : ℚ) (incidents : List Incident)
    (locations : List (Location ℚ)) :
    getHotspotAnalysis radius_km min_incidents days_back now
      (incidents.filter fun r => r.deleted_at.isNone) locations =
    getHotspotAnalysis radius_km min_incidents days_back now
      incidents locations := by
  simp only [getHotspotAnalysis]
  rw [filter_isNone_filter]
  intro r hr
  simp only [Bool.and_eq_true] at hr
  exact hr.2

/-- The historical samples of the predictive estimator ignore soft-deleted
incidents. -/
theorem histCounts_deleted_invariant (prediction_days : ℕ)
    (locId : Option ℕ) (cat : Option String) (now : ℚ)
    (incidents : List Incident) :
    histCounts prediction_days locId cat now
      (incidents.filter fun r => r.deleted_at.isNone) =
    histCounts prediction_days locId cat now incidents := by
  simp only [histCounts]
  refine List.map_congr_left fun m _ => ?_
  rw [filter_isNone_filter]
  intro r hr
  simp only [Bool.and_eq_true] at hr
  exact hr.1.1.2

/-- Claim C9: soft-deleted incidents contribute to no analytic result:
every operation of the engine returns the same response whether or not the
soft-deleted incidents are first removed from the store. -/
theorem soft_deleted_excluded (incidents : List Incident) :
    (∀ start? end? locId cat now locations,
      getCrimeStatistics start? end? locId cat now
        (incidents.filter fun r => r.deleted_at.isNone) locations =
      getCrimeStatistics start? end? locId cat now incidents locations) ∧
    (∀ period cat locId trunc now,
      getTrendAnalysis period cat locId trunc now
        (incidents.filter fun r => r.deleted_at.isNone) =
      getTrendAnalysis period cat locId trunc now incidents) ∧
    (∀ radius_km min_incidents days_back now locations,
      getHotspotAnalysis radius_km min_incidents days_back now
        (incidents.filter fun r => r.deleted_at.isNone) locations =
      getHotspotAnalysis radius_km min_incidents days_back now
        incidents locations) ∧
    (∀ prediction_days locId cat now,
      getPredictiveAnalysis prediction_days locId cat now
        (incidents.filter fun r => r.deleted_at.isNone) =
      getPredictiveAnalysis prediction_days locId cat now incidents) := by
  refine ⟨fun s e l c n ls => getCrimeStatistics_deleted_invariant s e l c n incidents ls,
    fun period cat locId trunc now => ?_,
    fun r m d n ls => getHotspotAnalysis_deleted_invariant r m d n incidents ls,
    fun pd locId cat now => ?_⟩
  · unfold getTrendAnalysis
    cases periodDaysBack period with
    | none => rfl
    | some d =>
      show Except.ok (trendCore period d cat locId trunc now
        (incidents.filter fun r => r.deleted_at.isNone)) =
        Except.ok (trendCore period d cat locId trunc now incidents)
      rw [trendCore_deleted_invariant]
  · simp only [getPredictiveAnalysis]
    rw [histCounts_deleted_invariant]

/-- Soundness of the nearby-location query for an arbitrary distance
column: results are within the radius, active, carry their own distance,
and are sorted ascending by distance. -/
theorem getNearbyLocations_sound {α β : Type} [LinearOrder β]
    (dist : Location α → β) (radius_km : β)
    (locations : List (Location α)) :
    (∀ p ∈ getNearbyLocations dist radius_km locations,
      p.2 ≤ radius_km ∧ p.1.is_active = true ∧ p.2 = dist p.1) ∧
    (getNearbyLocations dist radius_km locations).Pairwise
      (fun a b => a.2 ≤ b.2) := by
  constructor
  · intro p hp
    simp only [getNearbyLocations] at hp
    obtain ⟨l, hl, rfl⟩ := List.mem_map.mp
      ((List.mem_insertionSort distAscLe).mp hp)
    have hf2 := (List.mem_filter.mp hl).2
    rw [Bool.and_eq_true] at hf2
    exact ⟨of_decide_eq_true hf2.2, hf2.1, rfl⟩
  · simp only [getNearbyLocations]
    exact (List.sorted_insertionSort distAscLe _).imp fun h => h

/-- Claim C5: every pair returned by the nearby-location query is within
the radius under the spherical law-of-cosines distance (Earth radius
6371 km), only active locations appear, and the result is sorted ascending
by that distance. -/
theorem nearby_locations_sound (lat lon radius_km : ℝ)
    (locations : List (Location ℝ)) :
    (∀ p ∈ getNearbyLocations
        (fun l => sphericalDistance lat lon l.latitude l.longitude)
        radius_km locations,
      p.2 ≤ radius_km ∧ p.1.is_active = true ∧
      p.2 = sphericalDistance lat lon p.1.latitude p.1.longitude) ∧
    (getNearbyLocations
        (fun l => sphericalDistance lat lon l.latitude l.longitude)
        radius_km locations).Pairwise (fun a b => a.2 ≤ b.2) :=
  getNearbyLocations_sound _ radius_km locations

/-- The law-of-cosines distance from the origin to itself is 0. -/
theorem sphericalDistance_zero : sphericalDistance 0 0 0 0 = 0 := by
  simp [sphericalDistance, radiansOf, Real.arccos_one]

/-- Evaluation of the nearby query on one active origin location. -/
theorem nearby_eval :
    getNearbyLocations
      (fun l => sphericalDistance 0 0 l.latitude l.longitude) 1
      [sampleLocR] =
      [(sampleLocR, sphericalDistance 0 0 sampleLocR.latitude
        sampleLocR.longitude)] := by
  have h0 : sphericalDistance 0 0 sampleLocR.latitude sampleLocR.longitude = 0 :=
    sphericalDistance_zero
  have hd : decide (sphericalDistance 0 0 sampleLocR.latitude
      sampleLocR.longitude ≤ (1 : ℝ)) = true :=
    decide_eq_true (by rw [h0]; norm_num)
  simp only [getNearbyLocations]
  rw [List.filter_cons_of_pos]
  · rfl
  · rw [hd]
    simp [sampleLocR]

/-- Witness for the nearby-location theorem: the origin location is
returned by the concrete query with radius 1 and satisfies its contract. -/
theorem nearby_locations_sound_witness :
    sphericalDistance 0 0 sampleLocR.latitude sampleLocR.longitude ≤ 1 ∧
    sampleLocR.is_active = true := by
  have hm : (sampleLocR, sphericalDistance 0 0 sampleLocR.latitude
      sampleLocR.longitude) ∈
      getNearbyLocations
        (fun l => sphericalDistance 0 0 l.latitude l.longitude) 1
        [sampleLocR] := by
    rw [nearby_eval]
    exact List.mem_singleton_self _
  have h := (nearby_locations_sound 0 0 1 [sampleLocR]).1 _ hm
  exact ⟨h.1, h.2.1⟩

/-- The historical mean is non-negative. -/
theorem histAvg_nonneg (counts : List ℕ) : 0 ≤ histAvg counts := by
  unfold histAvg
  apply div_nonneg _ (Nat.cast_nonneg _)
  induction counts with
  | nil => simp
  | cons a t ih =>
    simp only [List.map_cons, List.sum_cons]
    have ha : (0 : ℝ) ≤ (a : ℝ) := Nat.cast_nonneg a
    linarith

/-- The historical standard deviation is non-negative. -/
theorem histStd_nonneg (counts : List ℕ) : 0 ≤ histStd counts := by
  unfold histStd
  split_ifs
  · exact Real.sqrt_nonneg _
  · exact le_refl 0

/-- Rounding to 2 decimals keeps a real in `[0.3, 1]`. -/
theorem round2R_bounds (x : ℝ) (h1 : (0.3 : ℝ) ≤ x) (h2 : x ≤ 1) :
    (0.3 : ℝ) ≤ round2R x ∧ round2R x ≤ 1 := by
  have hr := abs_sub_round (x * 100)
  rw [abs_le] at hr
  have hge : (30 : ℤ) ≤ round (x * 100) := by
    have hc : (59 : ℝ) ≤ 2 * ((round (x * 100) : ℤ) : ℝ) := by
      have := hr.2
      linarith
    have hc2 : (59 : ℤ) ≤ 2 * round (x * 100) := by exact_mod_cast hc
    omega
  have hle2 : round (x * 100) ≤ (100 : ℤ) := by
    have hc : 2 * ((round (x * 100) : ℤ) : ℝ) ≤ 201 := by
      have := hr.1
      linarith
    have hc2 : 2 * round (x * 100) ≤ (201 : ℤ) := by exact_mod_cast hc
    omega
  unfold round2R
  constructor
  · have hcast : (30 : ℝ) ≤ ((round (x * 100) : ℤ) : ℝ) := by exact_mod_cast hge
    linarith
  · have hcast : ((round (x * 100) : ℤ) : ℝ) ≤ 100 := by exact_mod_cast hle2
    linarith

/-- Python's truncation toward zero is monotone. -/
theorem pyInt_mono {x y : ℝ} (h : x ≤ y) : pyInt x ≤ pyInt y := by
  unfold pyInt
  split_ifs with hx hy hy2
  · exact Int.floor_le_floor h
  · exact absurd (le_trans hx h) hy
  · calc ⌈x⌉ ≤ ⌈(0 : ℝ)⌉ := Int.ceil_le_ceil (le_of_lt (lt_of_not_ge hx))
      _ = 0 := Int.ceil_zero
      _ ≤ ⌊y⌋ := Int.floor_nonneg.mpr hy2
  · exact Int.ceil_le_ceil h

/-- On non-negative reals, Python's truncation is the floor. -/
theorem pyInt_of_nonneg {x : ℝ} (h : 0 ≤ x) : pyInt x = ⌊x⌋ := if_pos h

/-- Claim C6: every per-day prediction point has its confidence in
`[0.3, 1]`, equal to the rounded `max(0.3, 1 - stdev / max(mean, 1))`, a
non-negative predicted count, and bounds with
`lower_bound ≤ predicted_count ≤ upper_bound` (the standard deviation is
non-negative by construction). -/
theorem prediction_point_bounds (prediction_days : ℕ) (locId : Option ℕ)
    (cat : Option String) (now : ℚ) (incidents : List Incident) :
    ∀ p ∈ (getPredictiveAnalysis prediction_days locId cat now
        incidents).predictions,
      (0.3 : ℝ) ≤ p.confidence ∧ p.confidence ≤ 1 ∧
      p.confidence = round2R (max 0.3
        (1 - histStd (histCounts prediction_days locId cat now incidents) /
          max (histAvg (histCounts prediction_days locId cat now incidents))
            1)) ∧
      0 ≤ p.predicted_count ∧
      p.lower_bound ≤ p.predicted_count ∧
      p.predicted_count ≤ p.upper_bound := by
  intro p hp
  simp only [getPredictiveAnalysis] at hp
  split at hp
  · simp at hp
  · obtain ⟨day, _, rfl⟩ := List.mem_map.mp hp
    have havg := histAvg_nonneg (histCounts prediction_days locId cat now incidents)
    have hstd := histStd_nonneg (histCounts prediction_days locId cat now incidents)
    set avg := histAvg (histCounts prediction_days locId cat now incidents) with ha
    set std := histStd (histCounts prediction_days locId cat now incidents) with hs
    have hmax1 : (1 : ℝ) ≤ max avg 1 := le_max_right _ _
    have hfrac : 0 ≤ std / max avg 1 :=
      div_nonneg hstd (le_trans zero_le_one hmax1)
    have hraw1 : (0.3 : ℝ) ≤ max 0.3 (1 - std / max avg 1) := le_max_left _ _
    have hraw2 : max 0.3 (1 - std / max avg 1) ≤ 1 :=
      max_le (by norm_num) (by linarith)
    have hbounds := round2R_bounds _ hraw1 hraw2
    refine ⟨hbounds.1, hbounds.2, rfl, le_max_left _ _, ?_, ?_⟩
    · exact max_le_max (le_refl 0) (pyInt_mono (by linarith))
    · have hd : 0 ≤ avg / (prediction_days : ℝ) :=
        div_nonneg havg (Nat.cast_nonneg _)
      have hdu : 0 ≤ avg / (prediction_days : ℝ) + std := by linarith
      apply max_le
      · show (0 : ℤ) ≤ pyInt (avg / (prediction_days : ℝ) + std)
        rw [pyInt_of_nonneg hdu]
        exact Int.floor_nonneg.mpr hdu
      · show pyInt (avg / (prediction_days : ℝ)) ≤
          pyInt (avg / (prediction_days : ℝ) + std)
        exact pyInt_mono (by linarith)

/-- Rounding 1 to 2 decimals gives 1. -/
theorem round2R_one : round2R 1 = 1 := by
  unfold round2R
  rw [one_mul, show ((100 : ℝ)) = ((100 : ℤ) : ℝ) by norm_num, round_intCast]
  norm_num

/-- A prediction point computed from mean 0 and deviation 0: zero counts,
zero bounds, confidence 1. -/
theorem mkPrediction_zero (prediction_days day : ℕ) :
    mkPrediction 0 0 prediction_days day = ⟨day + 1, 0, 1, 0, 0⟩ := by
  unfold mkPrediction
  have h1 : (0 : ℝ) / (prediction_days : ℝ) = 0 := zero_div _
  have h2 : max (0 : ℝ) 1 = 1 := max_eq_right zero_le_one
  have h3 : max (0.3 : ℝ) 1 = 1 := max_eq_right (by norm_num)
  have h4 : pyInt 0 = 0 := by unfold pyInt; simp
  simp only [h1, h2, zero_div, sub_zero, add_zero, h3, round2R_one, h4,
    max_self]

/-- When all five historical samples are 0 (no historical incident data in
any look-back window), the predictive analysis returns zero predicted
counts with confidence 1 per day, overall confidence 1, and the
low-incident recommendation. -/
theorem predictive_all_zero (prediction_days : ℕ) (locId : Option ℕ)
    (cat : Option String) (now : ℚ) (incidents : List Incident)
    (hpd : 0 < prediction_days)
    (hzero : histCounts prediction_days locId cat now incidents =
      [0, 0, 0, 0, 0]) :
    getPredictiveAnalysis prediction_days locId cat now incidents =
      { crime_type := cat, location_id := locId,
        prediction_days := prediction_days,
        predictions := (List.range prediction_days).map
          fun day => ⟨day + 1, 0, 1, 0, 0⟩,
        overall_confidence := 1,
        recommendation :=
          "Low incident prediction. Standard monitoring recommended." } := by
  have havg : histAvg [0, 0, 0, 0, 0] = 0 := by
    unfold histAvg; norm_num
  have hstd : histStd [0, 0, 0, 0, 0] = 0 := by
    unfold histStd
    rw [if_pos (by norm_num), havg]
    norm_num
  simp only [getPredictiveAnalysis, hzero]
  rw [if_neg (by simp), havg, hstd]
  have hpreds : (List.range prediction_days).map
      (mkPrediction 0 0 prediction_days) =
      (List.range prediction_days).map
        fun day => (⟨day + 1, 0, 1, 0, 0⟩ : PredictionDataPoint) :=
    List.map_congr_left fun day _ => mkPrediction_zero prediction_days day
  rw [hpreds]
  have hconf : ((List.range prediction_days).map
      fun day => (⟨day + 1, 0, 1, 0, 0⟩ : PredictionDataPoint)).map
        (fun x => x.confidence) = List.replicate prediction_days (1 : ℝ) := by
    rw [List.map_map,
      show ((fun x : PredictionDataPoint => x.confidence) ∘
        fun day : ℕ => (⟨day + 1, 0, 1, 0, 0⟩ : PredictionDataPoint)) =
        fun _ : ℕ => (1 : ℝ) from rfl,
      List.map_const', List.length_range]
  have hcnt : ((List.range prediction_days).map
      fun day => (⟨day + 1, 0, 1, 0, 0⟩ : PredictionDataPoint)).map
        (fun x => x.predicted_count) =
        List.replicate prediction_days (0 : ℤ) := by
    rw [List.map_map,
      show ((fun x : PredictionDataPoint => x.predicted_count) ∘
        fun day : ℕ => (⟨day + 1, 0, 1, 0, 0⟩ : PredictionDataPoint)) =
        fun _ : ℕ => (0 : ℤ) from rfl,
      List.map_const', List.length_range]
  rw [hconf, hcnt]
  have hmean : meanR (List.replicate prediction_days (1 : ℝ)) = 1 := by
    unfold meanR
    rw [List.sum_replicate, List.length_replicate, nsmul_eq_mul, mul_one]
    exact div_self (Nat.cast_ne_zero.mpr hpd.ne')
  have hsum0 : (List.replicate prediction_days (0 : ℤ)).sum = 0 := by
    rw [List.sum_replicate]; simp
  rw [hmean, hsum0, round2R_one]
  have hrec : genRecommendation 0 1 =
      "Low incident prediction. Standard monitoring recommended." := by
    unfold genRecommendation
    rw [if_neg (by norm_num), if_neg (by norm_num), if_neg (by norm_num),
      if_neg (by norm_num)]
  rw [hrec]

/-- Counterexample to claim C1: with an empty store (so no historical
incident data in any look-back window) the analysis returns overall
confidence 1.0 and the low-incident recommendation, not confidence 0.0 and
the low-confidence message: the zero-sample branch is unreachable because
the offset list always yields five samples. -/
theorem predictive_zero_history_counterexample :
    (getPredictiveAnalysis 1 none none 0 []).overall_confidence = 1 ∧
    (getPredictiveAnalysis 1 none none 0 []).recommendation =
      "Low incident prediction. Standard monitoring recommended." ∧
    ¬ ((getPredictiveAnalysis 1 none none 0 []).overall_confidence = 0 ∧
       (getPredictiveAnalysis 1 none none 0 []).recommendation =
         "Low confidence prediction. More historical data needed for accurate forecasting.") := by
  rw [predictive_all_zero 1 none none 0 [] (by norm_num) rfl]
  refine ⟨rfl, rfl, ?_⟩
  rintro ⟨h1, _⟩
  norm_num at h1

/-- Claim C1 as amended: when there is no historical incident data for any
look-back offset, the five historical samples are all 0 and the analysis
returns overall confidence 1.0 (not 0.0), total predicted count 0, and the
low-incident recommendation (not the low-confidence message). -/
theorem predictive_zero_history_amended (prediction_days : ℕ)
    (locId : Option ℕ) (cat : Option String) (now : ℚ)
    (incidents : List Incident) (hpd : 0 < prediction_days)
    (hzero : histCounts prediction_days locId cat now incidents =
      [0, 0, 0, 0, 0]) :
    (getPredictiveAnalysis prediction_days locId cat now
      incidents).overall_confidence = 1 ∧
    ((getPredictiveAnalysis prediction_days locId cat now
      incidents).predictions.map (fun p => p.predicted_count)).sum = 0 ∧
    (getPredictiveAnalysis prediction_days locId cat now
      incidents).recommendation =
      "Low incident prediction. Standard monitoring recommended." := by
  rw [predictive_all_zero prediction_days locId cat now incidents hpd hzero]
  refine ⟨rfl, ?_, rfl⟩
  rw [List.map_map,
    show ((fun p : PredictionDataPoint => p.predicted_count) ∘
      fun day : ℕ => (⟨day + 1, 0, 1, 0, 0⟩ : PredictionDataPoint)) =
      fun _ : ℕ => (0 : ℤ) from rfl,
    List.map_const', List.sum_replicate]
  simp

/-- Witness for the amended claim C1 at the concrete empty store. -/
theorem predictive_zero_history_amended_witness :
    (getPredictiveAnalysis 1 none none 0 []).overall_confidence = 1 ∧
    (getPredictiveAnalysis 1 none none 0 []).recommendation =
      "Low incident prediction. Standard monitoring recommended." := by
  have h := predictive_zero_history_amended 1 none none 0 [] (by norm_num) rfl
  exact ⟨h.1, h.2.2⟩

/-- Witness for the prediction-point theorem: the single point produced for
the empty store satisfies the bounds. -/
theorem prediction_point_bounds_witness :
    (0.3 : ℝ) ≤ (⟨1, 0, 1, 0, 0⟩ : PredictionDataPoint).confidence ∧
    (⟨1, 0, 1, 0, 0⟩ : PredictionDataPoint).lower_bound ≤
      (⟨1, 0, 1, 0, 0⟩ : PredictionDataPoint).predicted_count ∧
    (⟨1, 0, 1, 0, 0⟩ : PredictionDataPoint).predicted_count ≤
      (⟨1, 0, 1, 0, 0⟩ : PredictionDataPoint).upper_bound := by
  have heval := predictive_all_zero 1 none none 0 [] (by norm_num) rfl
  have hm : (⟨1, 0, 1, 0, 0⟩ : PredictionDataPoint) ∈
      (getPredictiveAnalysis 1 none none 0 []).predictions := by
    rw [heval]
    show (⟨1, 0, 1, 0, 0⟩ : PredictionDataPoint) ∈
      (List.range 1).map fun day => (⟨day + 1, 0, 1, 0, 0⟩ : PredictionDataPoint)
    rw [show List.range 1 = [0] from rfl]
    exact List.mem_singleton_self _
  have h := prediction_point_bounds 1 none none 0 [] _ hm
  exact ⟨h.1, h.2.2.2.2.1, h.2.2.2.2.2⟩

end WeNotify
